import Mathlib

/-!
Shallow embedding of the dual-role HRS+LBS ring firmware
(`src/src/main.c`, `src/unnamed/part_000`, `src/src/nrf54l15_power_mgr.c`).

Conventions:
* `int8_t` values are modelled as `Int`; the C cast `(int8_t)x` is `int8cast`.
* `uint32_t` timestamps are modelled as `Nat`; the subtractions
  `now - last_*` in the C sources are modelled with truncated `Nat`
  subtraction, which agrees with the 32-bit unsigned subtraction on all
  non-wrapping executions (the claims under study do not involve
  wrap-around of the 49.7-day millisecond counter).
* `uint8_t drain_counter` arithmetic carries an explicit `% 256`.
* Side effects on the Bluetooth stack (`bt_le_adv_stop`, `bt_scan_stop`,
  `bt_conn_disconnect`, `k_work_schedule`, `bt_conn_le_param_update`, ...)
  are modelled as emitted action lists.
-/

/-! ## RSSI filter (`rssi_filter_*` in main.c / part_000; identical in both) -/

structure RssiFilter where
  history : List Int
  index : Nat
  full : Bool
deriving DecidableEq

/-- `rssi_filter_init`: `memset(filter, 0, sizeof(*filter))`. -/
def rssi_filter_init : RssiFilter :=
  { history := List.replicate 5 0, index := 0, full := false }

/-- `rssi_filter_add`: write at `index`, advance `index` mod 5 (RSSI_HISTORY_SIZE),
set `full` once the index wraps to 0. -/
def rssi_filter_add (f : RssiFilter) (rssi : Int) : RssiFilter :=
  let h := f.history.set f.index rssi
  let i := (f.index + 1) % 5
  { history := h, index := i, full := f.full || (i == 0) }

/-- The C cast `(int8_t)x` (two's-complement wrap into [-128, 127]). -/
def int8cast (x : Int) : Int := (x + 128) % 256 - 128

/-- `rssi_filter_get_average`: `-70` when `!full && index == 0`; otherwise the
truncating integer mean (C `/` on `int32_t`, cast back to `int8_t`) of the
first `count` history entries, where `count` is 5 when full else `index`. -/
def rssi_filter_get_average (f : RssiFilter) : Int :=
  if !f.full && f.index == 0 then -70
  else
    let count : Nat := if f.full then 5 else f.index
    let sum : Int := (f.history.take count).sum
    int8cast (Int.tdiv sum count)

/-- Feeding a whole sample sequence into a freshly initialised filter. -/
def addAll (xs : List Int) : RssiFilter :=
  xs.foldl rssi_filter_add rssi_filter_init

/-! ## Distance estimation (`estimate_distance` in main.c / part_000) -/

inductive DistanceLevel where
  | unknown | veryClose | close | medium | far | veryFar
deriving DecidableEq

/-- `estimate_distance`: fixed thresholds -35 / -55 / -70 / -85. -/
def estimate_distance (rssi : Int) : DistanceLevel :=
  if -35 ≤ rssi then .veryClose
  else if -55 ≤ rssi then .close
  else if -70 ≤ rssi then .medium
  else if -85 ≤ rssi then .far
  else .veryFar

/-- Ordinal "farness" of a distance level (VeryClose is nearest). `unknown`
is never produced by `estimate_distance`; it ranks beyond VeryFar. -/
def farRank : DistanceLevel → Nat
  | .veryClose => 0
  | .close => 1
  | .medium => 2
  | .far => 3
  | .veryFar => 4
  | .unknown => 5

/-! ## Power manager (`nrf54l15_power_mgr.c`) -/

inductive PowerMode where
  | active | idle | sleep | deepSleep
deriving DecidableEq

structure PowerManager where
  current_mode : PowerMode
  last_activity_time : Nat
  battery_level : Nat
  ultra_low_power : Bool
  mode_change_time : Nat
  total_active_time : Nat
  total_sleep_time : Nat
deriving DecidableEq

/-- `struct bt_le_conn_param` as filled in by `adjust_connection_params`. -/
structure BtConnParam where
  interval_min : Nat
  interval_max : Nat
  latency : Nat
  timeout : Nat
deriving DecidableEq

/-- The four fixed profiles of `adjust_connection_params`. -/
def connParamFor : PowerMode → BtConnParam
  | .active => ⟨6, 12, 0, 400⟩
  | .idle => ⟨40, 60, 1, 600⟩
  | .sleep => ⟨80, 120, 4, 800⟩
  | .deepSleep => ⟨240, 320, 10, 1200⟩

/-- Parameter-update side effects pushed by `set_power_mode` through
`adjust_connection_params` (one per occupied ring slot). -/
inductive PMAction where
  | paramCentral (p : BtConnParam)
  | paramPeripheral (p : BtConnParam)
deriving DecidableEq

/-- `set_power_mode`: no-op on equal mode; otherwise accumulate duration into
the Active or non-Active total, stamp the new mode and change time, and push
the new profile to each occupied slot (`slots = (central occupied, peripheral
occupied)`). -/
def set_power_mode (pm : PowerManager) (slots : Bool × Bool) (now : Nat)
    (new_mode : PowerMode) : PowerManager × List PMAction :=
  if new_mode = pm.current_mode then (pm, [])
  else
    let duration := now - pm.mode_change_time
    let pm1 :=
      if pm.current_mode = .active then
        { pm with total_active_time := pm.total_active_time + duration }
      else
        { pm with total_sleep_time := pm.total_sleep_time + duration }
    let pm2 := { pm1 with current_mode := new_mode, mode_change_time := now }
    (pm2,
      (if slots.1 then [.paramCentral (connParamFor new_mode)] else []) ++
      (if slots.2 then [.paramPeripheral (connParamFor new_mode)] else []))

/-- `on_user_activity`: stamp `last_activity_time`; force Active when not
already Active. -/
def on_user_activity (pm : PowerManager) (slots : Bool × Bool) (now : Nat) :
    PowerManager × List PMAction :=
  let pm1 := { pm with last_activity_time := now }
  if pm1.current_mode ≠ .active then set_power_mode pm1 slots now .active
  else (pm1, [])

/-- `on_connection_lost`: unconditionally `set_power_mode(POWER_MODE_SLEEP)`. -/
def on_connection_lost (pm : PowerManager) (slots : Bool × Bool) (now : Nat) :
    PowerManager × List PMAction :=
  set_power_mode pm slots now .sleep

/-- `update_power_mode`'s function-static state (`last_battery_update`,
`drain_counter`) together with the power manager singleton. -/
structure PowerSys where
  pm : PowerManager
  last_battery_update : Nat
  drain_counter : Nat
deriving DecidableEq

/-- The mode-dependent drain rate in `update_power_mode`. -/
def drainRate : PowerMode → Nat
  | .active => 2
  | .idle => 1
  | .sleep => 0
  | .deepSleep => 0

/-- The tail of `update_power_mode` after the battery block: skipped entirely
while `ultra_low_power`; otherwise the idle-threshold target selection with
`set_power_mode` on change. -/
def evalIdleTransition (sys : PowerSys) (slots : Bool × Bool) (now : Nat)
    (idle_time : Nat) : PowerSys × List PMAction :=
  if sys.pm.ultra_low_power then (sys, [])
  else
    let target : PowerMode :=
      if 120000 < idle_time then .deepSleep
      else if 30000 < idle_time then .sleep
      else if 5000 < idle_time then .idle
      else .active
    if target ≠ sys.pm.current_mode then
      let r := set_power_mode sys.pm slots now target
      ({ sys with pm := r.1 }, r.2)
    else (sys, [])

/-- `update_power_mode`: the 60-second battery block (drain accumulation,
1-point decrement clamped at 0 once the counter reaches 2, ultra-low-power
latch at battery ≤ 15 with early return), then the idle-based transition. -/
def update_power_mode (sys : PowerSys) (slots : Bool × Bool) (now : Nat) :
    PowerSys × List PMAction :=
  let idle_time := now - sys.pm.last_activity_time
  if 60000 < now - sys.last_battery_update then
    let dc0 := (sys.drain_counter + drainRate sys.pm.current_mode) % 256
    let battery := if 2 ≤ dc0 then sys.pm.battery_level - 1
                   else sys.pm.battery_level
    let dc := if 2 ≤ dc0 then 0 else dc0
    let sys1 : PowerSys :=
      { pm := { sys.pm with battery_level := battery },
        last_battery_update := now, drain_counter := dc }
    if battery ≤ 15 && !sys1.pm.ultra_low_power then
      let pmL := { sys1.pm with ultra_low_power := true }
      let r := set_power_mode pmL slots now .deepSleep
      ({ sys1 with pm := r.1 }, r.2)
    else evalIdleTransition sys1 slots now idle_time
  else evalIdleTransition sys slots now idle_time

/-! ## Link slot registry and discovery/advertise scheduling
(`connected` / `disconnected` / `reconnect_work_handler` in
`src/unnamed/part_000`, the revision that carries the duplicate-peer guard
and the alternating reconnection policy; `scan_start` / `adv_work_handler`
are the same in both revisions apart from the reconnect handler body). -/

/-- An established transport link: an opaque handle identity plus the peer
address returned by `bt_conn_get_dst`. -/
structure Conn where
  id : Nat
  addr : Nat
deriving DecidableEq

/-- `struct ring_connection`. -/
structure RingConn where
  conn : Option Conn
  hrs_ready : Bool
  lbs_ready : Bool
  rssi_filter : RssiFilter
  current_rssi : Int
  distance : DistanceLevel
  last_rssi_update : Nat
  last_hr_value : Nat
  connection_time : Nat
deriving DecidableEq

/-- `memset(&ring, 0, sizeof(ring))` followed by `rssi_filter_init`. -/
def ringInit : RingConn :=
  { conn := none, hrs_ready := false, lbs_ready := false,
    rssi_filter := rssi_filter_init, current_rssi := 0,
    distance := .unknown, last_rssi_update := 0, last_hr_value := 0,
    connection_time := 0 }

/-- Side effects of the connection-management module on the BT stack,
work queues, and LEDs. -/
inductive BtAction where
  | terminateLink (c : Conn)
  | advStop
  | scanStop
  | advStart
  | scanStart
  | scheduleReconnect (ms : Nat)
  | scheduleRssiWork (ms : Nat)
  | setSecurity (c : Conn)
  | gattDiscover (c : Conn)
  | ledOn (led : Nat)
  | ledOff (led : Nat)
deriving DecidableEq

inductive Role where
  | central | peripheral
deriving DecidableEq

/-- The duplicate-peer test `other_slot.conn && !bt_addr_le_cmp(new, other)`. -/
def addrConflict (other : Option Conn) (c : Conn) : Bool :=
  match other with
  | some k => k.addr == c.addr
  | none => false

structure ConnectedResult where
  central : RingConn
  peripheral : RingConn
  actions : List BtAction
deriving DecidableEq

/-- The `connected` callback of part_000: connection-error cleanup; the
duplicate-peer guard terminating the new link when the *other* slot already
holds the same peer address; otherwise populate the role's slot and stop
advertising and scanning. `infoOk` models `bt_conn_get_info` succeeding. -/
def connected (cen per : RingConn) (c : Conn) (conn_err : Nat) (infoOk : Bool)
    (role : Role) (now : Nat) : ConnectedResult :=
  if conn_err ≠ 0 then
    if cen.conn = some c then ⟨ringInit, per, [.scheduleReconnect 2000]⟩
    else ⟨cen, per, []⟩
  else if !infoOk then ⟨cen, per, []⟩
  else
    match role with
    | .central =>
      if addrConflict per.conn c then ⟨cen, per, [.terminateLink c]⟩
      else
        ⟨{ cen with
            conn := some c
            current_rssi := -50
            distance := estimate_distance (-50)
            connection_time := now
            rssi_filter := rssi_filter_init },
          per,
          [.advStop, .scanStop, .ledOn 2, .setSecurity c, .gattDiscover c,
            .scheduleRssiWork 3000]⟩
    | .peripheral =>
      if addrConflict cen.conn c then ⟨cen, per, [.terminateLink c]⟩
      else
        ⟨cen,
          { per with
            conn := some c
            current_rssi := -45
            distance := estimate_distance (-45)
            connection_time := now
            rssi_filter := rssi_filter_init },
          [.scanStop, .advStop, .ledOn 3, .scheduleRssiWork 3000]⟩

/-- The `disconnected` callback of part_000 (slot clearing and the 1-second
reconnect scheduling; the LBS-client context cleanup is not modelled). -/
def disconnected (cen per : RingConn) (c : Conn) :
    RingConn × RingConn × List BtAction :=
  if cen.conn = some c then (ringInit, per, [.ledOff 2, .scheduleReconnect 1000])
  else if per.conn = some c then (cen, ringInit, [.ledOff 3, .scheduleReconnect 1000])
  else (cen, per, [])

/-- `reconnect_work_handler` of part_000: start exactly one capability
(scan when the last attempt favored advertising and vice versa), re-arm
itself 1500 ms later, and toggle the `last_role_was_central` static.
Returns (emitted actions, new value of the static). -/
def reconnect_work_handler (last_role_was_central : Bool) :
    List BtAction × Bool :=
  if !last_role_was_central then ([.scanStart, .scheduleReconnect 1500], true)
  else ([.advStart, .scheduleReconnect 1500], false)

/-- `scan_start`: `-ENODEV` (= -19) without side effects when the system is
not ready; otherwise the result of `bt_scan_start` (supplied as `scan_err`),
with no retry scheduled on failure. -/
def scan_start (system_ready : Bool) (scan_err : Int) : Int × List BtAction :=
  if !system_ready then (-19, [])
  else if scan_err = 0 then (0, [.scanStart])
  else (scan_err, [])

/-- `adv_work_handler`: nothing when the system is not ready; on
`bt_le_adv_start` failure (`adv_err ≠ 0`) schedule the reconnect work
`K_SECONDS(5)` later; on success advertising is running. -/
def adv_work_handler (system_ready : Bool) (adv_err : Int) : List BtAction :=
  if !system_ready then []
  else if adv_err = 0 then [.advStart]
  else [.scheduleReconnect 5000]

/-! A small serialized event system over the part_000 handlers, used to
examine the discoverable/discovering capabilities across whole traces.
Work items execute to completion in order; `bt_le_adv_start` /
`bt_scan_start` are assumed to succeed, and the delayed reconnect work is
represented by a pending flag (it is re-armed by its own handler and is
never cancelled by the connection callbacks). -/

structure SchedState where
  central : RingConn
  peripheral : RingConn
  advOn : Bool
  scanOn : Bool
  reconnectPending : Bool
  last_role_was_central : Bool
deriving DecidableEq

def applyAction (s : SchedState) (a : BtAction) : SchedState :=
  match a with
  | .advStop => { s with advOn := false }
  | .scanStop => { s with scanOn := false }
  | .advStart => { s with advOn := true }
  | .scanStart => { s with scanOn := true }
  | .scheduleReconnect _ => { s with reconnectPending := true }
  | _ => s

inductive Event where
  | connEstablished (c : Conn) (role : Role)
  | connLost (c : Conn)
  | reconnectFire
deriving DecidableEq

def stepEvent (s : SchedState) (now : Nat) : Event → SchedState
  | .connEstablished c role =>
    let r := connected s.central s.peripheral c 0 true role now
    r.actions.foldl applyAction
      { s with central := r.central, peripheral := r.peripheral }
  | .connLost c =>
    let r := disconnected s.central s.peripheral c
    r.2.2.foldl applyAction { s with central := r.1, peripheral := r.2.1 }
  | .reconnectFire =>
    if s.reconnectPending then
      let r := reconnect_work_handler s.last_role_was_central
      r.1.foldl applyAction { s with last_role_was_central := r.2 }
    else s

/-- State after `main` has started scanning and advertising. -/
def schedInit : SchedState :=
  { central := ringInit, peripheral := ringInit, advOn := true,
    scanOn := true, reconnectPending := false, last_role_was_central := false }

def runTrace (evs : List (Nat × Event)) : SchedState :=
  evs.foldl (fun s p => stepEvent s p.1 p.2) schedInit

/-! ## Closed form for the filter state after a sample sequence -/

/-- The filter state reached by feeding `xs` into a fresh filter: with fewer
than 5 samples the buffer holds them in order followed by zero padding; from
5 samples on, the buffer holds exactly the last 5 samples, rotated so that
the newest `length % 5` of them occupy the front of the buffer. -/
def modelFilter (xs : List Int) : RssiFilter :=
  if xs.length < 5 then
    { history := xs ++ List.replicate (5 - xs.length) 0
      index := xs.length
      full := false }
  else
    { history := xs.drop (xs.length - xs.length % 5) ++
        (xs.take (xs.length - xs.length % 5)).drop (xs.length - 5)
      index := xs.length % 5
      full := true }

theorem set_append_left_length {α : Type} (A B : List α) (v : α) :
    (A ++ B).set A.length v = A ++ B.set 0 v := by
  induction A with
  | nil => rfl
  | cons a t ih => simp [ih]

theorem set_zero_of_ne_nil {α : Type} (B : List α) (v : α) (h : B ≠ []) :
    B.set 0 v = v :: B.tail := by
  cases B with
  | nil => exact absurd rfl h
  | cons b t => rfl

theorem addAll_append_singleton (ys : List Int) (v : Int) :
    addAll (ys ++ [v]) = rssi_filter_add (addAll ys) v := by
  simp [addAll, List.foldl_append]

theorem set_at_length {α : Type} (A B : List α) (v : α) (i : Nat)
    (h : i = A.length) : (A ++ B).set i v = A ++ B.set 0 v := by
  subst h
  exact set_append_left_length A B v

theorem addAll_eq_model (xs : List Int) : addAll xs = modelFilter xs := by
  induction xs using List.reverseRecOn with
  | nil => simp [addAll, modelFilter, rssi_filter_init]
  | append_singleton ys v ih =>
    rw [addAll_append_singleton, ih]
    have hlen : (ys ++ [v]).length = ys.length + 1 := by simp
    rcases Nat.lt_or_ge ys.length 5 with h5 | h5
    · rcases Nat.lt_or_ge ys.length 4 with h4 | h4
      · -- at most 3 samples so far: the pad shrinks by one
        rw [modelFilter, if_pos h5]
        simp only [modelFilter, hlen]
        rw [if_pos (by omega)]
        simp only [rssi_filter_add]
        have hrep : List.replicate (5 - ys.length) (0 : Int) =
            0 :: List.replicate (5 - (ys.length + 1)) 0 := by
          have h : 5 - ys.length = (5 - (ys.length + 1)) + 1 := by omega
          rw [h, List.replicate_succ]
        simp only [RssiFilter.mk.injEq]
        refine ⟨?_, ?_, ?_⟩
        · rw [hrep, set_append_left_length]
          simp [List.set]
        · omega
        · have hm : (ys.length + 1) % 5 = ys.length + 1 := by omega
          simp [hm]
      · -- exactly 4 samples so far: the buffer becomes full
        have h4' : ys.length = 4 := by omega
        rw [modelFilter, if_pos h5]
        simp only [modelFilter, hlen]
        rw [if_neg (by omega)]
        simp only [rssi_filter_add]
        have hrep : List.replicate (5 - ys.length) (0 : Int) = [0] := by
          have h : 5 - ys.length = 1 := by omega
          rw [h, List.replicate_one]
        simp only [RssiFilter.mk.injEq]
        refine ⟨?_, ?_, ?_⟩
        · rw [hrep, set_append_left_length]
          have hd : (ys ++ [v]).drop (ys.length + 1 - (ys.length + 1) % 5) = [] := by
            apply List.drop_eq_nil_of_le
            rw [hlen]; omega
          have ht : (ys ++ [v]).take (ys.length + 1 - (ys.length + 1) % 5) =
              ys ++ [v] := by
            have h : ys.length + 1 - (ys.length + 1) % 5 = (ys ++ [v]).length := by
              rw [hlen]; omega
            rw [h, List.take_length]
          rw [hd, ht]
          have h0 : ys.length + 1 - 5 = 0 := by omega
          rw [h0, List.drop_zero]
          simp [List.set]
        · trivial
        · have hm : (ys.length + 1) % 5 = 0 := by omega
          simp [hm]
    · -- buffer already full: overwrite the oldest sample
      rw [modelFilter, if_neg (by omega)]
      simp only [modelFilter, hlen]
      rw [if_neg (by omega)]
      simp only [rssi_filter_add]
      have hA : (ys.drop (ys.length - ys.length % 5)).length = ys.length % 5 := by
        rw [List.length_drop]; omega
      have hBne : (ys.take (ys.length - ys.length % 5)).drop (ys.length - 5) ≠ [] := by
        intro hB
        have hBlen := congrArg List.length hB
        rw [List.length_drop, List.length_take] at hBlen
        simp at hBlen
        omega
      have htail : ((ys.take (ys.length - ys.length % 5)).drop (ys.length - 5)).tail =
          (ys.take (ys.length - ys.length % 5)).drop (ys.length - 4) := by
        rw [← List.drop_one, List.drop_drop]
        congr 1
        omega
      simp only [RssiFilter.mk.injEq]
      rcases Nat.lt_or_ge (ys.length % 5) 4 with hi | hi
      · -- newest block grows by one
        refine ⟨?_, by omega, by simp⟩
        rw [set_at_length (ys.drop (ys.length - ys.length % 5))
            ((ys.take (ys.length - ys.length % 5)).drop (ys.length - 5)) v
            (ys.length % 5) hA.symm,
          set_zero_of_ne_nil _ _ hBne, htail]
        have hm : (ys.length + 1) % 5 = ys.length % 5 + 1 := by omega
        rw [hm]
        have h1 : ys.length + 1 - (ys.length % 5 + 1) = ys.length - ys.length % 5 := by
          omega
        have h2 : ys.length + 1 - 5 = ys.length - 4 := by omega
        rw [h1, h2, List.drop_append_eq_append_drop, List.take_append_eq_append_take]
        have h0 : ys.length - ys.length % 5 - ys.length = 0 := by omega
        rw [h0]
        simp
      · -- the index wraps back to 0
        have hi' : ys.length % 5 = 4 := by omega
        refine ⟨?_, by omega, by simp⟩
        rw [set_at_length (ys.drop (ys.length - ys.length % 5))
            ((ys.take (ys.length - ys.length % 5)).drop (ys.length - 5)) v
            (ys.length % 5) hA.symm,
          set_zero_of_ne_nil _ _ hBne, htail]
        have htail0 : (ys.take (ys.length - ys.length % 5)).drop (ys.length - 4) = [] := by
          apply List.drop_eq_nil_of_le
          rw [List.length_take]; omega
        rw [htail0]
        have hm : (ys.length + 1) % 5 = 0 := by omega
        rw [hm]
        have hd : (ys ++ [v]).drop (ys.length + 1 - 0) = [] := by
          apply List.drop_eq_nil_of_le
          rw [hlen]; omega
        have ht : (ys ++ [v]).take (ys.length + 1 - 0) = ys ++ [v] := by
          have h : ys.length + 1 - 0 = (ys ++ [v]).length := by rw [hlen]; omega
          rw [h, List.take_length]
        rw [hd, ht]
        have h2 : ys.length + 1 - 5 = ys.length - 4 := by omega
        rw [h2, List.drop_append_eq_append_drop]
        have h0 : ys.length - 4 - ys.length = 0 := by omega
        rw [h0]
        have hAeq : ys.length - ys.length % 5 = ys.length - 4 := by omega
        rw [hAeq]
        simp

/-! ## Integer-mean facts used to discharge the `(int8_t)` cast -/

theorem sum_bounds (l : List Int) (hr : ∀ x ∈ l, -128 ≤ x ∧ x ≤ 127) :
    -128 * (l.length : Int) ≤ l.sum ∧ l.sum ≤ 127 * (l.length : Int) := by
  induction l with
  | nil => simp
  | cons a t ih =>
    have ha := hr a (by simp)
    have ht := ih (fun x hx => hr x (by simp [hx]))
    simp only [List.sum_cons, List.length_cons]
    push_cast
    omega

theorem tdiv_mean_bounds (s k : Int) (hk : 0 < k)
    (h1 : -128 * k ≤ s) (h2 : s ≤ 127 * k) :
    -128 ≤ Int.tdiv s k ∧ Int.tdiv s k ≤ 127 := by
  rcases le_or_lt 0 s with hs | hs
  · rw [Int.tdiv_eq_ediv hs (le_of_lt hk)]
    constructor
    · have h0 : (0 : Int) ≤ s / k := Int.ediv_nonneg hs (le_of_lt hk)
      omega
    · have h3 : s / k ≤ 127 * k / k := Int.ediv_le_ediv hk h2
      rw [Int.mul_ediv_cancel 127 (ne_of_gt hk)] at h3
      exact h3
  · have hs' : (0 : Int) ≤ -s := by omega
    have hrw : Int.tdiv s k = -Int.tdiv (-s) k := by
      rw [← Int.neg_tdiv, neg_neg]
    rw [hrw, Int.tdiv_eq_ediv hs' (le_of_lt hk)]
    constructor
    · have h3 : -s / k ≤ 128 * k / k := Int.ediv_le_ediv hk (by omega)
      rw [Int.mul_ediv_cancel 128 (ne_of_gt hk)] at h3
      omega
    · have h0 : (0 : Int) ≤ -s / k := Int.ediv_nonneg hs' (le_of_lt hk)
      omega

theorem int8cast_eq_self (y : Int) (h1 : -128 ≤ y) (h2 : y ≤ 127) :
    int8cast y = y := by
  unfold int8cast
  have h3 : (y + 128) % 256 = y + 128 := Int.emod_eq_of_lt (by omega) (by omega)
  omega

theorem int8cast_tdiv_sum (l : List Int) (hne : l ≠ [])
    (hr : ∀ x ∈ l, -128 ≤ x ∧ x ≤ 127) :
    int8cast (Int.tdiv l.sum (l.length : Int)) = Int.tdiv l.sum (l.length : Int) := by
  have hb := sum_bounds l hr
  have hk : (0 : Int) < (l.length : Int) := by
    have h0 : l.length ≠ 0 := fun h => hne (List.eq_nil_of_length_eq_zero h)
    omega
  have hd := tdiv_mean_bounds l.sum (l.length : Int) hk hb.1 hb.2
  exact int8cast_eq_self _ hd.1 hd.2

/-! ## What `average` returns, as a function of the sample sequence -/

theorem average_partial (xs : List Int) (h1 : 1 ≤ xs.length) (h4 : xs.length ≤ 4)
    (hr : ∀ x ∈ xs, -128 ≤ x ∧ x ≤ 127) :
    rssi_filter_get_average (addAll xs) = Int.tdiv xs.sum (xs.length : Int) := by
  rw [addAll_eq_model, modelFilter, if_pos (by omega)]
  simp only [rssi_filter_get_average]
  rw [if_neg (by simp only [Bool.not_false, Bool.true_and, beq_iff_eq]; omega)]
  simp only [if_false, Bool.false_eq_true, List.take_left]
  have hne : xs ≠ [] := by
    intro h
    rw [h] at h1
    simp at h1
  exact int8cast_tdiv_sum xs hne hr

theorem split_drop (xs : List Int) (k m : Nat) (hkm : m ≤ k) (hk : k ≤ xs.length) :
    (xs.take k).drop m ++ xs.drop k = xs.drop m := by
  conv_rhs => rw [← List.take_append_drop k xs]
  rw [List.drop_append_eq_append_drop]
  have hl : (xs.take k).length = k := by rw [List.length_take]; omega
  rw [hl]
  have h0 : m - k = 0 := by omega
  rw [h0, List.drop_zero]

theorem average_full (xs : List Int) (h5 : 5 ≤ xs.length)
    (hr : ∀ x ∈ xs, -128 ≤ x ∧ x ≤ 127) :
    rssi_filter_get_average (addAll xs) =
      Int.tdiv (xs.drop (xs.length - 5)).sum ((5 : Nat) : Int) := by
  rw [addAll_eq_model, modelFilter, if_neg (by omega)]
  simp only [rssi_filter_get_average]
  rw [if_neg (by simp)]
  simp only [if_true]
  have hlenA : (xs.drop (xs.length - xs.length % 5)).length = xs.length % 5 := by
    rw [List.length_drop]; omega
  have hlenB : ((xs.take (xs.length - xs.length % 5)).drop (xs.length - 5)).length
      = 5 - xs.length % 5 := by
    rw [List.length_drop, List.length_take]; omega
  have hlen5 : (xs.drop (xs.length - xs.length % 5) ++
      (xs.take (xs.length - xs.length % 5)).drop (xs.length - 5)).length = 5 := by
    rw [List.length_append, hlenA, hlenB]; omega
  have htake : (xs.drop (xs.length - xs.length % 5) ++
      (xs.take (xs.length - xs.length % 5)).drop (xs.length - 5)).take 5 =
      xs.drop (xs.length - xs.length % 5) ++
      (xs.take (xs.length - xs.length % 5)).drop (xs.length - 5) := by
    apply List.take_of_length_le
    rw [hlen5]
  rw [htake]
  have hsplit := split_drop xs (xs.length - xs.length % 5) (xs.length - 5)
    (by omega) (by omega)
  have hsum : (xs.drop (xs.length - xs.length % 5) ++
      (xs.take (xs.length - xs.length % 5)).drop (xs.length - 5)).sum =
      (xs.drop (xs.length - 5)).sum := by
    rw [List.sum_append, add_comm, ← List.sum_append, hsplit]
  rw [hsum]
  have hdl : (xs.drop (xs.length - 5)).length = 5 := by
    rw [List.length_drop]; omega
  have hrd : ∀ x ∈ xs.drop (xs.length - 5), -128 ≤ x ∧ x ≤ 127 :=
    fun x hx => hr x (List.drop_subset _ _ hx)
  have hnd : xs.drop (xs.length - 5) ≠ [] := by
    intro h
    rw [h] at hdl
    simp at hdl
  have := int8cast_tdiv_sum (xs.drop (xs.length - 5)) hnd hrd
  rw [hdl] at this
  exact this

/-! ## Claim C2 -/

/-- C2 counterexample: after a single `add_sample(-40)` (buffer not yet
wrapped), `average()` returns -40 — the partial-window mean — and not the
neutral default -70 that the claim requires for 1 to 4 samples. -/
theorem premature_average_counterexample :
    rssi_filter_get_average (addAll [-40]) = -40 ∧
    rssi_filter_get_average (addAll [-40]) ≠ -70 := by decide

/-- C2 amended: `average()` returns the -70 default only while no sample has
ever been added; with 1 to 4 samples it returns the truncating integer mean
of exactly those samples (a partial-window average); once the buffer has
wrapped (≥ 5 samples) it returns the truncating integer mean of exactly the
last 5 samples. -/
theorem rssi_average_spec (xs : List Int)
    (hr : ∀ x ∈ xs, -128 ≤ x ∧ x ≤ 127) :
    (xs = [] → rssi_filter_get_average (addAll xs) = -70) ∧
    (1 ≤ xs.length → xs.length ≤ 4 →
      rssi_filter_get_average (addAll xs) = Int.tdiv xs.sum (xs.length : Int)) ∧
    (5 ≤ xs.length →
      rssi_filter_get_average (addAll xs) =
        Int.tdiv (xs.drop (xs.length - 5)).sum ((5 : Nat) : Int)) := by
  refine ⟨?_, ?_, ?_⟩
  · rintro rfl
    decide
  · exact fun h1 h4 => average_partial xs h1 h4 hr
  · exact fun h5 => average_full xs h5 hr

theorem rssi_average_spec_witness :
    (∀ x ∈ ([-60, -61, -62, -63, -64, -90] : List Int), -128 ≤ x ∧ x ≤ 127) ∧
    rssi_filter_get_average (addAll [-60, -61, -62, -63, -64, -90]) =
      Int.tdiv (([-60, -61, -62, -63, -64, -90] : List Int).drop
        (([-60, -61, -62, -63, -64, -90] : List Int).length - 5)).sum ((5 : Nat) : Int) :=
  ⟨by decide, (rssi_average_spec [-60, -61, -62, -63, -64, -90] (by decide)).2.2 (by decide)⟩

/-! ## Claim C8 -/

/-- C8: `estimate_distance` realises exactly the claimed threshold
intervals (≥ -35 VeryClose, else ≥ -55 Close, else ≥ -70 Medium, else
≥ -85 Far, else VeryFar), and is monotone: a lower filtered value never
yields a strictly closer level than a higher one. -/
theorem estimate_distance_thresholds_monotone :
    (∀ v : Int,
      (estimate_distance v = .veryClose ↔ -35 ≤ v) ∧
      (estimate_distance v = .close ↔ -55 ≤ v ∧ v < -35) ∧
      (estimate_distance v = .medium ↔ -70 ≤ v ∧ v < -55) ∧
      (estimate_distance v = .far ↔ -85 ≤ v ∧ v < -70) ∧
      (estimate_distance v = .veryFar ↔ v < -85)) ∧
    (∀ a b : Int, a ≤ b →
      farRank (estimate_distance b) ≤ farRank (estimate_distance a)) := by
  constructor
  · intro v
    unfold estimate_distance
    refine ⟨?_, ?_, ?_, ?_, ?_⟩ <;> split_ifs <;> simp_all <;> omega
  · intro a b hab
    unfold estimate_distance
    split_ifs <;> simp_all [farRank] <;> omega

theorem estimate_distance_monotone_witness :
    (-60 : Int) ≤ -40 ∧
    farRank (estimate_distance (-40)) ≤ farRank (estimate_distance (-60)) :=
  ⟨by decide, estimate_distance_thresholds_monotone.2 (-60) (-40) (by decide)⟩

/-! ## Claim C9 -/

/-- C9: while already Active, `on_user_activity` only refreshes
`last_activity_time`: the mode, both time-in-mode totals, `mode_change_time`,
the battery and the latch are untouched, and no parameter update is pushed. -/
theorem user_activity_idempotent_active (pm : PowerManager)
    (slots : Bool × Bool) (now : Nat) (h : pm.current_mode = .active) :
    on_user_activity pm slots now = ({ pm with last_activity_time := now }, []) := by
  simp [on_user_activity, h]

def pmActiveSample : PowerManager :=
  { current_mode := .active, last_activity_time := 100, battery_level := 90,
    ultra_low_power := false, mode_change_time := 50, total_active_time := 3,
    total_sleep_time := 4 }

theorem user_activity_idempotent_witness :
    pmActiveSample.current_mode = .active ∧
    on_user_activity pmActiveSample (true, false) 42 =
      ({ pmActiveSample with last_activity_time := 42 }, []) :=
  ⟨by decide, user_activity_idempotent_active pmActiveSample (true, false) 42 (by decide)⟩

/-! ## Claim C10 -/

/-- C10: `on_connection_lost` moves any non-Sleep state to Sleep — including
a latched DeepSleep state, since no latch check occurs — accumulating
time-in-mode statistics and pushing the Sleep link-parameter profile to
every occupied slot; the latch flag itself is untouched. -/
theorem connection_lost_forces_sleep (pm : PowerManager) (slots : Bool × Bool)
    (now : Nat) (h : pm.current_mode ≠ .sleep) :
    (on_connection_lost pm slots now).1.current_mode = .sleep ∧
    (on_connection_lost pm slots now).1.ultra_low_power = pm.ultra_low_power ∧
    (on_connection_lost pm slots now).1.mode_change_time = now ∧
    (pm.current_mode = .active →
      (on_connection_lost pm slots now).1.total_active_time =
        pm.total_active_time + (now - pm.mode_change_time) ∧
      (on_connection_lost pm slots now).1.total_sleep_time = pm.total_sleep_time) ∧
    (pm.current_mode ≠ .active →
      (on_connection_lost pm slots now).1.total_sleep_time =
        pm.total_sleep_time + (now - pm.mode_change_time) ∧
      (on_connection_lost pm slots now).1.total_active_time = pm.total_active_time) ∧
    (on_connection_lost pm slots now).2 =
      (if slots.1 then [.paramCentral (connParamFor .sleep)] else []) ++
      (if slots.2 then [.paramPeripheral (connParamFor .sleep)] else []) := by
  have h' : PowerMode.sleep ≠ pm.current_mode := fun hh => h hh.symm
  by_cases ha : pm.current_mode = PowerMode.active <;>
    simp [on_connection_lost, set_power_mode, h', ha]

def pmLatchedDS : PowerManager :=
  { current_mode := .deepSleep, last_activity_time := 1000, battery_level := 10,
    ultra_low_power := true, mode_change_time := 2000, total_active_time := 7,
    total_sleep_time := 8 }

theorem connection_lost_forces_sleep_witness :
    pmLatchedDS.current_mode ≠ .sleep ∧ pmLatchedDS.ultra_low_power = true ∧
    (on_connection_lost pmLatchedDS (true, false) 5000).1.current_mode = .sleep :=
  ⟨by decide, by decide,
    (connection_lost_forces_sleep pmLatchedDS (true, false) 5000 (by decide)).1⟩

/-! ## Claim C3 -/

/-- C3 counterexample: from a latched DeepSleep state, `on_user_activity`
still forces Active — `current_mode` does not remain DeepSleep under every
subsequent operation while the latch is set. -/
theorem latch_user_activity_counterexample :
    pmLatchedDS.ultra_low_power = true ∧
    pmLatchedDS.current_mode = .deepSleep ∧
    (on_user_activity pmLatchedDS (false, false) 6000).1.current_mode ≠ .deepSleep := by
  decide

/-- C3 amended: the latch is one-way and pins only the periodic tick — while
`ultra_low_power` is set, `update_power_mode` never changes `current_mode`
(all idle-based promotion/demotion is bypassed) and never clears the latch;
but event-driven overrides are not blocked: `on_user_activity` still forces
Active from any non-Active latched state. -/
theorem latch_tick_pinning (sys : PowerSys) (slots : Bool × Bool) (now : Nat)
    (hl : sys.pm.ultra_low_power = true) :
    ((update_power_mode sys slots now).1.pm.current_mode = sys.pm.current_mode ∧
     (update_power_mode sys slots now).1.pm.ultra_low_power = true) ∧
    (∀ pm : PowerManager, pm.ultra_low_power = true → pm.current_mode ≠ .active →
      (on_user_activity pm slots now).1.current_mode = .active) := by
  constructor
  · simp [update_power_mode, evalIdleTransition, hl]
    split_ifs <;> simp_all
  · intro pm hpl hna
    have hna' : PowerMode.active ≠ pm.current_mode := fun hh => hna hh.symm
    simp [on_user_activity, set_power_mode, hna, hna']

def sysLatched : PowerSys :=
  { pm := pmLatchedDS, last_battery_update := 0, drain_counter := 0 }

theorem latch_tick_pinning_witness :
    sysLatched.pm.ultra_low_power = true ∧
    (update_power_mode sysLatched (false, false) 70000).1.pm.current_mode =
      sysLatched.pm.current_mode :=
  ⟨by decide, ((latch_tick_pinning sysLatched (false, false) 70000 (by decide)).1).1⟩

/-! ## Claim C4 -/

/-- The C4 scenario start state: battery 16%, latch clear, Active. -/
def c4Init : PowerSys :=
  { pm := { current_mode := .active, last_activity_time := 0, battery_level := 16,
            ultra_low_power := false, mode_change_time := 0, total_active_time := 0,
            total_sleep_time := 0 },
    last_battery_update := 0, drain_counter := 0 }

/-- One 60-second battery update taken in Active mode, as the claim's
premise "drain rate 2 per update" requires (the device is held Active at
each update). -/
def c4Step (sys : PowerSys) (now : Nat) : PowerSys :=
  (update_power_mode { sys with pm := { sys.pm with current_mode := .active } }
    (false, false) now).1

/-- `k` consecutive such updates, 60001 ms apart so each one enters the
battery block. -/
def c4After (k : Nat) : PowerSys :=
  (List.range k).foldl (fun s i => c4Step s ((i + 1) * 60001)) c4Init

/-- C4 counterexample: the ten Active-mode updates starting from 16% leave
the battery at 6% — a decrease of exactly 10, not the claimed 5 (which
would leave 11%). -/
theorem battery_scenario_counterexample :
    (c4After 10).pm.battery_level = 6 ∧ (c4After 10).pm.battery_level ≠ 11 := by
  decide

/-- C4 amended: each Active-mode 60-second update accumulates drain 2, which
reaches the quantization threshold 2 every single update, so every update
decrements the battery by exactly 1: ten updates from 16% leave 6% (a
decrease of exactly 10). The latch stays false until battery ≤ 15: it is
clear initially and engages at the first update, exactly when the battery
reaches 15%. -/
theorem battery_scenario_amended :
    c4Init.pm.ultra_low_power = false ∧
    (c4After 1).pm.battery_level = 15 ∧
    (c4After 1).pm.ultra_low_power = true ∧
    (c4After 10).pm.battery_level = 6 := by
  decide

/-! ## Claim C1 -/

/-- The two slots never reference the same peer address. -/
def slotsDistinct (cen per : RingConn) : Prop :=
  ∀ k k2 : Conn, cen.conn = some k → per.conn = some k2 → k.addr ≠ k2.addr

theorem addrConflict_false_ne (o : Option Conn) (c k : Conn)
    (h : addrConflict o c = false) (hk : o = some k) : k.addr ≠ c.addr := by
  subst hk
  simp [addrConflict] at h
  exact h

/-- C1: when the other role slot already holds the connecting peer's
address, `connected` terminates the new link and leaves both slots entirely
unchanged (every field); moreover a `connected` step from any state
preserves slot-address distinctness, so at no instant do both slots hold
the same peer identity. -/
theorem duplicate_peer_guard (cen per : RingConn) (c : Conn) (now : Nat) :
    (addrConflict per.conn c = true →
      connected cen per c 0 true .central now = ⟨cen, per, [.terminateLink c]⟩) ∧
    (addrConflict cen.conn c = true →
      connected cen per c 0 true .peripheral now = ⟨cen, per, [.terminateLink c]⟩) ∧
    (∀ (e : Nat) (io : Bool) (role : Role), slotsDistinct cen per →
      slotsDistinct (connected cen per c e io role now).central
        (connected cen per c e io role now).peripheral) := by
  refine ⟨?_, ?_, ?_⟩
  · intro h
    simp [connected, h]
  · intro h
    simp [connected, h]
  · intro e io role hd
    unfold connected
    by_cases he : e ≠ 0
    · rw [if_pos he]
      by_cases hc : cen.conn = some c
      · rw [if_pos hc]
        intro k k2 hk hk2
        simp [ringInit] at hk
      · rw [if_neg hc]
        exact hd
    · rw [if_neg he]
      cases io with
      | false => exact hd
      | true =>
        cases role with
        | central =>
          by_cases hdup : addrConflict per.conn c = true
          · simp only [hdup, Bool.not_true, Bool.false_eq_true, if_false, if_true]
            exact hd
          · have hdup' : addrConflict per.conn c = false :=
              Bool.eq_false_iff.mpr hdup
            simp only [hdup', Bool.not_true, Bool.false_eq_true, if_false]
            intro k k2 hk hk2
            simp only at hk hk2
            rw [Option.some.injEq] at hk
            subst hk
            exact fun hEq => addrConflict_false_ne per.conn c k2 hdup' hk2 hEq.symm
        | peripheral =>
          by_cases hdup : addrConflict cen.conn c = true
          · simp only [hdup, Bool.not_true, Bool.false_eq_true, if_false, if_true]
            exact hd
          · have hdup' : addrConflict cen.conn c = false :=
              Bool.eq_false_iff.mpr hdup
            simp only [hdup', Bool.not_true, Bool.false_eq_true, if_false]
            intro k k2 hk hk2
            simp only at hk hk2
            rw [Option.some.injEq] at hk2
            subst hk2
            exact addrConflict_false_ne cen.conn c k hdup' hk
  
def perWithAddr7 : RingConn := { ringInit with conn := some ⟨4, 7⟩ }

theorem duplicate_peer_guard_witness :
    addrConflict perWithAddr7.conn ⟨3, 7⟩ = true ∧
    connected ringInit perWithAddr7 ⟨3, 7⟩ 0 true .central 9 =
      ⟨ringInit, perWithAddr7, [.terminateLink ⟨3, 7⟩]⟩ :=
  ⟨by decide, (duplicate_peer_guard ringInit perWithAddr7 ⟨3, 7⟩ 9).1 (by decide)⟩

/-! ## Claim C5 -/

/-- The trace refuting the "for as long as the slot is occupied" part of C5:
a peripheral link comes and goes (arming the self-re-arming reconnect work),
then a central link is established, and the still-pending reconnect work
fires twice, restarting advertising while the central slot is occupied. -/
def c5Trace : SchedState :=
  runTrace [(1, .connEstablished ⟨1, 10⟩ .peripheral), (2, .connLost ⟨1, 10⟩),
            (3, .reconnectFire), (4, .connEstablished ⟨2, 20⟩ .central),
            (5, .reconnectFire)]

/-- C5 counterexample: advertising is stopped when the central (initiator)
slot becomes occupied, but not for as long as it stays occupied — after the
trace above the central slot is occupied and advertising is running again,
so the device is discoverable while acting as initiator. -/
theorem suspend_capability_counterexample :
    c5Trace.central.conn = some ⟨2, 20⟩ ∧ c5Trace.advOn = true := by
  decide

/-- C5 amended: the suspension does happen at the occupation transition —
`connected` in the central role emits stop-advertising (and stop-scanning)
and populates the central slot, and in the peripheral role emits
stop-scanning (and stop-advertising) and populates the peripheral slot —
but the code does not keep the capability suspended for as long as the
slot is occupied: the self-re-arming reconnect work restarts advertising
and scanning without checking slot occupancy (see the counterexample). -/
theorem suspend_capability_on_occupation (cen per : RingConn) (c : Conn)
    (now : Nat) :
    (addrConflict per.conn c = false →
      BtAction.advStop ∈ (connected cen per c 0 true .central now).actions ∧
      (connected cen per c 0 true .central now).central.conn = some c) ∧
    (addrConflict cen.conn c = false →
      BtAction.scanStop ∈ (connected cen per c 0 true .peripheral now).actions ∧
      (connected cen per c 0 true .peripheral now).peripheral.conn = some c) := by
  constructor <;> intro h <;> simp [connected, h]

theorem suspend_capability_witness :
    addrConflict ringInit.conn ⟨5, 30⟩ = false ∧
    BtAction.advStop ∈ (connected ringInit ringInit ⟨5, 30⟩ 0 true .central 11).actions :=
  ⟨by decide,
    ((suspend_capability_on_occupation ringInit ringInit ⟨5, 30⟩ 11).1 (by decide)).1⟩

/-! ## Claim C6 -/

/-- C6: every invocation of `reconnect_work_handler` starts exactly one
capability first — scanning when the last attempt favored advertising and
vice versa — toggles the single static boolean, and re-arms itself with the
fixed 1500 ms (1.5 s) delay. The handler reads no slot state, so this holds
in particular on every invocation while no slot is occupied. -/
theorem reconnect_alternation (b : Bool) :
    (reconnect_work_handler b).1 =
      [if b then .advStart else .scanStart, .scheduleReconnect 1500] ∧
    (reconnect_work_handler b).2 = !b := by
  cases b <;> exact ⟨rfl, rfl⟩

/-! ## Claim C7 -/

/-- C7 counterexample: a failing scan start (error -5) just returns the
error and emits no action at all — in particular it does not schedule the
claimed fixed-delay retry of the start. -/
theorem scan_retry_counterexample :
    (-5 : Int) ≠ 0 ∧ scan_start true (-5) = (-5, []) := by
  decide

/-- C7 amended: only a failing advertising start schedules the fixed
5-second (`K_SECONDS(5)`) delayed retry; a failing scan start merely logs
and returns the error, scheduling nothing. Neither failure is surfaced as
fatal — both handlers return normally. -/
theorem capability_retry_policy (e : Int) (he : e ≠ 0) :
    adv_work_handler true e = [.scheduleReconnect 5000] ∧
    scan_start true e = (e, []) := by
  constructor <;> simp [adv_work_handler, scan_start, he]

theorem capability_retry_policy_witness :
    (-12 : Int) ≠ 0 ∧ adv_work_handler true (-12) = [.scheduleReconnect 5000] :=
  ⟨by decide, (capability_retry_policy (-12) (by decide)).1⟩
